import Mathlib

/-!
# Budget tracker (`src/index.js`): tasks, task registry and budget controller

A shallow embedding of the classes `Task`, `IncomeTask`, `ExpenseTask`,
`TaskController` and `BudgetController`.

Modelling conventions.

* A task object is a record of the three read-only properties installed by the
  constructor (`id`, `description`, `cost`), the class it was constructed from
  and an allocation number `addr` that stands for the identity of the object:
  two different objects may carry the same `id`.
* The properties that the program adds to a task object after construction
  (`completed`, `completedDate`) live in a heap indexed by the task object.
* Numbers are modelled twice. The classes are first embedded with costs and balances
  in `Int`: exact arithmetic, which is what the program computes while every value is
  an integer below `2 ^ 53` in magnitude. The numeric part (the sort by cost, the
  constructor and the balances of the budget controller) is embedded a second time,
  in the namespace `Float64`, over all JavaScript numbers: NaN, the infinities and the
  finite doubles with round-to-nearest addition and subtraction. The first embedding
  is the restriction of the second to integer values (`getTasksSortedBy_toFloat64`,
  `JSNumber.add_ofInt`, `JSNumber.sub_ofInt`).
* JavaScript strings are compared by UTF-16 code unit (`jsStringLt`).
* `console.log` appends a line to the `console` component of the world.
* A thrown exception is the `Except.error` result.
-/

namespace Budget

/-- The class a task object was constructed from. -/
inductive TaskClass where
  | Task
  | IncomeTask
  | ExpenseTask
deriving DecidableEq, Repr

/-- A task object: `addr` is the identity of the object, `id`, `description` and
`cost` are the getter-only properties defined by the constructor of `Task`; the cost
is an integer here (`Float64.Task` has any number as cost). -/
structure Task where
  addr : Nat
  cls : TaskClass
  id : String
  description : String
  cost : Int
deriving DecidableEq, Repr

/-- The properties assigned to a task object after construction. `completed = false`
stands for the property being absent (`undefined`, which is falsy); the program only
ever tests its truthiness and only ever assigns `true`. `completedDate = none` stands
for the property being absent. -/
structure TaskFields where
  completed : Bool
  completedDate : Option Nat
deriving DecidableEq, Repr

/-- The fields of a task object as its constructor leaves it: the constructor defines
neither `completed` nor `completedDate`. -/
def TaskFields.initial : TaskFields := ⟨false, none⟩

/-- The heap: the assigned properties of every task object. -/
abbrev Heap := Task → TaskFields

/-- The heap in which every task object is as its constructor left it. -/
def Heap.initial : Heap := fun _ => TaskFields.initial

/-- Assignment of the fields of one task object. -/
def Heap.set (h : Heap) (t : Task) (f : TaskFields) : Heap :=
  fun x => if x = t then f else h x

/-- Truthiness of `foundTask.isDone`. No constructor, class body or assignment of the
program defines a property `isDone`, so the read gives `undefined`, which is falsy. -/
def Task.isDone (_t : Task) : Bool := false

/-- The record `{ balance, income, expenses }` held in `#budget`. -/
structure BudgetRecord where
  balance : Int
  income : Int
  expenses : Int
deriving DecidableEq, Repr

/-- `IncomeTask.makeDone(budget)`: `budget.income += this.cost`. -/
def IncomeTask.makeDone (t : Task) (budget : BudgetRecord) : BudgetRecord :=
  { budget with income := budget.income + t.cost }

/-- `IncomeTask.makeUnDone(budget)`: `budget.income -= this.cost`. -/
def IncomeTask.makeUnDone (t : Task) (budget : BudgetRecord) : BudgetRecord :=
  { budget with income := budget.income - t.cost }

/-- `ExpenseTask.makeDone(budget)`: `budget.expenses += this.cost`. -/
def ExpenseTask.makeDone (t : Task) (budget : BudgetRecord) : BudgetRecord :=
  { budget with expenses := budget.expenses + t.cost }

/-- `ExpenseTask.makeUnDone(budget)`: `budget.expenses -= this.cost`. -/
def ExpenseTask.makeUnDone (t : Task) (budget : BudgetRecord) : BudgetRecord :=
  { budget with expenses := budget.expenses - t.cost }

/-- The method call `task.makeUnDone(budget)` with dynamic dispatch on the class of
`task`; `budget = none` is the call without an argument (`budget` is `undefined`).
The base class `Task` has no such method, and reading `budget.income` or
`budget.expenses` of `undefined` throws. -/
def Task.makeUnDone (t : Task) (budget : Option BudgetRecord) : Except String BudgetRecord :=
  match t.cls, budget with
  | TaskClass.Task, _ => Except.error "TypeError: makeUnDone is not a function"
  | _, none => Except.error "TypeError: cannot read properties of undefined"
  | TaskClass.IncomeTask, some b => Except.ok (IncomeTask.makeUnDone t b)
  | TaskClass.ExpenseTask, some b => Except.ok (ExpenseTask.makeUnDone t b)

/-- The method call `task.makeDone(budget)`, dispatched like `Task.makeUnDone`. -/
def Task.makeDone (t : Task) (budget : Option BudgetRecord) : Except String BudgetRecord :=
  match t.cls, budget with
  | TaskClass.Task, _ => Except.error "TypeError: makeDone is not a function"
  | _, none => Except.error "TypeError: cannot read properties of undefined"
  | TaskClass.IncomeTask, some b => Except.ok (IncomeTask.makeDone t b)
  | TaskClass.ExpenseTask, some b => Except.ok (ExpenseTask.makeDone t b)

/-! ## TaskController -/

/-- The class `TaskController`: the private array `#tasks`. -/
structure TaskController where
  tasks : List Task
deriving DecidableEq, Repr

/-- The constructor of `TaskController`: `this.#tasks = []`. -/
def TaskController.new : TaskController := ⟨[]⟩

/-- One iteration of the loop of `addTasks`: push `task` unless some stored task has
its `id`. -/
def TaskController.addOne (c : TaskController) (task : Task) : TaskController :=
  let isUnique := !c.tasks.any (fun t => t.id == task.id)
  if isUnique then ⟨c.tasks ++ [task]⟩ else c

/-- `addTasks(...tasks)`: the loop over the arguments, in order. -/
def TaskController.addTasks (c : TaskController) (tasks : List Task) : TaskController :=
  tasks.foldl TaskController.addOne c

/-- `deleteTask(task)`: keep the items whose `id` differs from the one of `task`. -/
def TaskController.deleteTask (c : TaskController) (task : Task) : TaskController :=
  ⟨c.tasks.filter (fun item => item.id != task.id)⟩

/-- `getTasks()`: a copy of `#tasks`. -/
def TaskController.getTasks (c : TaskController) : List Task :=
  c.tasks

/-- The UTF-16 code units of a character: one unit below `0x10000`, a surrogate pair
above. -/
def utf16Units (c : Char) : List Nat :=
  if c.toNat < 65536 then [c.toNat]
  else [55296 + (c.toNat - 65536) / 1024, 56320 + (c.toNat - 65536) % 1024]

/-- The sequence of UTF-16 code units of a string, which is what a JavaScript string
is. -/
def toUTF16 (s : String) : List Nat :=
  (s.data.map utf16Units).flatten

/-- The operator `<` on two JavaScript strings: lexicographic comparison of the
sequences of code units. -/
def jsStringLt (a b : String) : Bool :=
  decide (toUTF16 a < toUTF16 b)

/-- The operator `<=` on two JavaScript strings: `a <= b` is `!(b < a)`. -/
def jsStringLe (a b : String) : Bool :=
  !jsStringLt b a

/-- The comparator of the key `"description"`; `a > b` on strings is `b < a`. -/
def compareDescription (a b : Task) : Int :=
  if jsStringLt a.description b.description then -1
  else if jsStringLt b.description a.description then 1
  else 0

/-- The comparator of the key `"cost"`. -/
def compareCost (a b : Task) : Int :=
  if a.cost > b.cost then -1
  else if a.cost < b.cost then 1
  else 0

/-- The comparator of the key `"status"`. Its first step is the call
`a.isCompleted()`; no class defines a method `isCompleted`, so the call throws. -/
def compareStatus (_a _b : Task) : Except String Int :=
  Except.error "TypeError: a.isCompleted is not a function"

/-- `Array.prototype.sort` with a comparator that does not throw: a stable sort,
`a` is placed before `b` when the comparator does not give a positive number. -/
def arraySort {α : Type} (cmp : α → α → Int) (l : List α) : List α :=
  l.insertionSort (fun a b => cmp a b ≤ 0)

/-- Insertion of `a` into a sorted array with a comparator that may throw. -/
def orderedInsertThrowing {α : Type} (cmp : α → α → Except String Int) (a : α) :
    List α → Except String (List α)
  | [] => Except.ok [a]
  | b :: l =>
    match cmp a b with
    | Except.error e => Except.error e
    | Except.ok v =>
      if v ≤ 0 then Except.ok (a :: b :: l)
      else
        match orderedInsertThrowing cmp a l with
        | Except.error e => Except.error e
        | Except.ok r => Except.ok (b :: r)

/-- `Array.prototype.sort` with a comparator that may throw: the same stable sort; the
first comparison that throws ends the sort with that exception. An array of fewer than
two elements is sorted without a call of the comparator. -/
def arraySortThrowing {α : Type} (cmp : α → α → Except String Int) :
    List α → Except String (List α)
  | [] => Except.ok []
  | a :: l =>
    match arraySortThrowing cmp l with
    | Except.error e => Except.error e
    | Except.ok s => orderedInsertThrowing cmp a s

/-- `getTasksSortedBy(value)`: the controller after the call (the sort is in place)
together with the value returned or the exception thrown; `value = none` is a key that
is absent or not a string. A sort that throws leaves `#tasks` as it was. -/
def TaskController.getTasksSortedBy (c : TaskController) (value : Option String) :
    TaskController × Except String (List Task) :=
  match value with
  | some "description" =>
    let sorted := arraySort compareDescription c.tasks
    (⟨sorted⟩, Except.ok sorted)
  | some "status" =>
    match arraySortThrowing compareStatus c.tasks with
    | Except.ok sorted => (⟨sorted⟩, Except.ok sorted)
    | Except.error e => (c, Except.error e)
  | some "cost" =>
    let sorted := arraySort compareCost c.tasks
    (⟨sorted⟩, Except.ok sorted)
  | _ => (c, Except.ok c.tasks)

/-! ## BudgetController -/

/-- The class `BudgetController`: the private fields `#taskController` and `#budget`. -/
structure BudgetController where
  taskController : TaskController
  budget : BudgetRecord
deriving DecidableEq, Repr

/-- The constructor of `BudgetController`. -/
def BudgetController.new (initialBalance : Int) : BudgetController :=
  { taskController := TaskController.new
    budget := { balance := initialBalance, income := 10, expenses := 5 } }

/-- The getter `income`. -/
def BudgetController.income (b : BudgetController) : Int :=
  b.budget.income

/-- The getter `expenses`. -/
def BudgetController.expenses (b : BudgetController) : Int :=
  b.budget.expenses

/-- The getter `balance`: `this.income - this.expenses`. -/
def BudgetController.balance (b : BudgetController) : Int :=
  b.income - b.expenses

/-- `calculateBalance()`. -/
def BudgetController.calculateBalance (b : BudgetController) : Int :=
  b.budget.balance + b.budget.income - b.budget.expenses

/-- `getTasks()` of the budget controller. -/
def BudgetController.getTasks (b : BudgetController) : List Task :=
  b.taskController.getTasks

/-- The world in which the methods of a budget controller run: the controller, the
assigned properties of the task objects, and the lines written by `console.log`. -/
structure World where
  ctl : BudgetController
  heap : Heap
  console : List String

/-- A world with a newly constructed controller, untouched task objects and an empty
console. -/
def World.new (initialBalance : Int) : World :=
  { ctl := BudgetController.new initialBalance, heap := Heap.initial, console := [] }

/-- The line written when the id of a task is not in the registry. -/
def notRecognized (task : Task) : String :=
  "Task " ++ task.id ++ " isn\x27t recognized"

/-- `addTask(...tasks)`: delegates to `addTasks` of the task controller. -/
def addTask (w : World) (tasks : List Task) : World :=
  { w with ctl := { w.ctl with taskController := w.ctl.taskController.addTasks tasks } }

/-- `deleteTask(task)` of the budget controller. -/
def deleteTask (w : World) (task : Task) : World :=
  let tasks := w.ctl.getTasks
  if !tasks.any (fun t => t.id == task.id) then
    { w with console := w.console ++ [notRecognized task] }
  else
    { w with ctl := { w.ctl with taskController := w.ctl.taskController.deleteTask task } }

/-- `doneTask(task)`; `now` is the value of `new Date()` at the call. The first `if`
only writes a line: it has no `return`. -/
def doneTask (w : World) (task : Task) (now : Nat) : World :=
  let tasks := w.ctl.getTasks
  let w1 : World :=
    if !tasks.any (fun t => t.id == task.id) then
      { w with console := w.console ++ [notRecognized task] }
    else w
  if (w1.heap task).completed then
    { w1 with console := w1.console ++ ["Task is already done"] }
  else
    { w1 with heap := w1.heap.set task { completed := true, completedDate := some now } }

/-- `unDoneTask(task)`. The last statement is the call `foundTask.makeUnDone()` without
an argument. -/
def unDoneTask (w : World) (task : Task) : Except String World :=
  let tasks := w.ctl.getTasks
  match tasks.find? (fun t => t.id == task.id) with
  | none => Except.ok { w with console := w.console ++ [notRecognized task] }
  | some foundTask =>
    if !foundTask.isDone then
      Except.ok { w with console := w.console ++ ["Task isn\x27t done before"] }
    else
      match foundTask.makeUnDone none with
      | Except.error e => Except.error e
      | Except.ok _ => Except.ok w

/-! ## Reachable registries and sample objects -/

/-- The states of a task controller that its public methods can produce: the
constructor, then any sequence of `addTasks` (with any list of arguments),
`deleteTask` and `getTasksSortedBy` (with any key, also when the call throws). -/
inductive TaskController.Reachable : TaskController → Prop
  | new : TaskController.Reachable TaskController.new
  | addTasks (c : TaskController) (tasks : List Task) :
      TaskController.Reachable c → TaskController.Reachable (c.addTasks tasks)
  | deleteTask (c : TaskController) (task : Task) :
      TaskController.Reachable c → TaskController.Reachable (c.deleteTask task)
  | getTasksSortedBy (c : TaskController) (value : Option String) :
      TaskController.Reachable c → TaskController.Reachable (c.getTasksSortedBy value).1

/-- No two tasks of the registry have the same `id`. -/
def TaskController.UniqueIds (c : TaskController) : Prop :=
  (c.tasks.map Task.id).Nodup

/-- An `ExpenseTask` of cost 15. -/
def sampleExpense : Task :=
  { addr := 1, cls := TaskClass.ExpenseTask, id := "id3f9a", description := "rent", cost := 15 }

/-- An `IncomeTask` of cost 40. -/
def sampleIncome : Task :=
  { addr := 2, cls := TaskClass.IncomeTask, id := "id77c1", description := "salary", cost := 40 }

/-- Another task object that carries the `id` of `sampleExpense`. -/
def sampleClash : Task :=
  { addr := 3, cls := TaskClass.IncomeTask, id := "id3f9a", description := "gift", cost := 8 }

/-- A new controller with initial balance 0 to which `sampleExpense` was added. -/
def sampleWorld : World :=
  addTask (World.new 0) [sampleExpense]

/-! ## Construction and filtering -/

/-- The test `x instanceof target` for an object `x` constructed from the class `c`:
`IncomeTask` and `ExpenseTask` extend `Task`, and no class extends them. -/
def TaskClass.instanceOf (c target : TaskClass) : Bool :=
  match target with
  | TaskClass.Task => true
  | TaskClass.IncomeTask => c == TaskClass.IncomeTask
  | TaskClass.ExpenseTask => c == TaskClass.ExpenseTask

/-- The expression `new C(description, cost)` for a class `C` of the program; the
constructors of `IncomeTask` and `ExpenseTask` only call `super(description, cost)`.
`addr` is the identity of the object made by `new`, and `random` is the string
`Math.random().toString(16).slice(2)`. The guard of the constructor of `Task` throws
when `this` is not an instance of `Task`. -/
def Task.construct (cls : TaskClass) (addr : Nat) (random : String) (description : String)
    (cost : Int) : Except String Task :=
  let _id := "id" ++ random
  let _description := description
  let _cost := cost
  if !(cls.instanceOf TaskClass.Task) then
    Except.error "You can\x27t call Task without new"
  else
    Except.ok { addr := addr, cls := cls, id := _id, description := _description,
                cost := _cost }

/-- The argument of `getFilteredTasks`: each criterion is present or absent. -/
structure TaskFilter where
  description : Option String
  isIncome : Option Bool
  isCompleted : Option Bool
deriving DecidableEq, Repr

/-- Truthiness of `task.isCompleted`. No constructor, class body or assignment of the
program defines a property `isCompleted` (`doneTask` assigns `completed`), so the read
gives `undefined`, which is falsy. -/
def Task.isCompleted (_t : Task) : Bool := false

/-- `s.includes(sub)`: `sub` occurs in `s` as a contiguous run of characters. -/
def includes (s sub : String) : Bool :=
  decide (List.IsInfix sub.data s.data)

/-- The callback that `getFilteredTasks` passes to `Array.prototype.filter`. The
criterion `description` is applied when it is truthy, that is a non-empty string;
`toLowerCase` is modelled by `String.toLower`, which folds the letters A to Z only. -/
def filterCallback (filter : TaskFilter) (task : Task) : Bool :=
  let failsDescription : Bool :=
    match filter.description with
    | some d => d != "" && !(includes task.description.toLower d.toLower)
    | none => false
  if failsDescription then false
  else
    let failsIncome : Bool :=
      match filter.isIncome with
      | some isIncome =>
        (isIncome && !(task.cls.instanceOf TaskClass.IncomeTask)) ||
        (!isIncome && !(task.cls.instanceOf TaskClass.ExpenseTask))
      | none => false
    if failsIncome then false
    else
      let failsCompleted : Bool :=
        match filter.isCompleted with
        | some isCompleted =>
          (isCompleted && !task.isCompleted) || (!isCompleted && task.isCompleted)
        | none => false
      if failsCompleted then false else true

/-- `getFilteredTasks(filter)`: `this.#tasks.filter(...)`, which builds a new array and
leaves `#tasks` as it is. -/
def TaskController.getFilteredTasks (c : TaskController) (filter : TaskFilter) : List Task :=
  c.tasks.filter (filterCallback filter)

/-- A registry of three tasks in insertion order: costs 15, 40, 15. -/
def sampleRegistry : TaskController :=
  TaskController.new.addTasks
    [sampleExpense, sampleIncome,
     { addr := 4, cls := TaskClass.Task, id := "id0b52", description := "books", cost := 15 }]

/-- A controller holding `sampleIncome` and `sampleExpense`, after `doneTask` on
`sampleIncome`. -/
def sampleDoneWorld : World :=
  doneTask (addTask (World.new 0) [sampleIncome, sampleExpense]) sampleIncome 1

/-- The world `sampleWorld` after `doneTask` on `sampleExpense`, with the effect of the
task written into the budget record by `ExpenseTask.makeDone`: the state that `doneTask`
would leave if it applied the effect. -/
def sampleAppliedWorld : World :=
  { doneTask sampleWorld sampleExpense 1 with
    ctl := { taskController := sampleWorld.ctl.taskController
             budget := ExpenseTask.makeDone sampleExpense sampleWorld.ctl.budget } }

/-! ## JavaScript numbers

The definitions above take costs and balances in `Int`: exact arithmetic, which is
what the program computes as long as every value is an integer below `2 ^ 53` in
magnitude (`JSNumber.add_ofInt`, `JSNumber.sub_ofInt`). The definitions of this section
and of the namespace `Float64` below repeat the numeric part of the program over all
JavaScript numbers (IEEE 754 doubles): NaN, the two infinities and the finite doubles,
each given by the rational number it denotes (the two zeros are not told apart: no
operator of the program does). -/

/-- Auxiliary recursion of `bitLength`; the first argument bounds the number of steps. -/
def bitLengthAux : Nat → Nat → Nat
  | 0, _ => 0
  | fuel + 1, n => if n = 0 then 0 else bitLengthAux fuel (n / 2) + 1

/-- The number of binary digits of `n` (0 for 0). -/
def bitLength (n : Nat) : Nat :=
  bitLengthAux n n

/-- The rational `2 ^ d` for an integer exponent. -/
def pow2 (d : Int) : ℚ :=
  if 0 ≤ d then ((2 ^ d.toNat : Nat) : ℚ) else 1 / ((2 ^ (-d).toNat : Nat) : ℚ)

/-- The integer `e` with `2 ^ e ≤ |q| < 2 ^ (e + 1)`, for `q ≠ 0`. -/
def floorLog2 (q : ℚ) : Int :=
  let d : Int := (bitLength q.num.natAbs : Int) - (bitLength q.den : Int)
  if pow2 d ≤ |q| then d else d - 1

/-- Rounding of a rational to the nearest integer, a tie going to the even one. -/
def roundHalfEven (x : ℚ) : Int :=
  let f := x.floor
  let r := x - f
  if r < 1 / 2 then f else if 1 / 2 < r then f + 1 else if f % 2 = 0 then f else f + 1

/-- The odd part of `n`: `n` without its factors 2 (0 for 0). -/
def oddPart (n : Nat) : Nat :=
  n / Nat.gcd n (2 ^ bitLength n)

/-- Whether `d ≥ 1` is a power of two. -/
def isPow2 (d : Nat) : Bool :=
  d == 2 ^ (bitLength d - 1)

/-- Whether the rational `q` is the value of a finite double: `q = m * 2 ^ e` with
`|m| < 2 ^ 53`, `e ≥ -1074` and `|q| < 2 ^ 1024`. -/
def representable (q : ℚ) : Bool :=
  isPow2 q.den && decide (q.den ≤ 2 ^ 1074) && decide (oddPart q.num.natAbs < 2 ^ 53) &&
    decide (|q| < pow2 1024)

/-- The multiple of the unit in the last place of `q` nearest to `q`, a tie going to
the even multiple (53 significant bits, exponents from -1022 on). -/
def roundNearest (q : ℚ) : ℚ :=
  let e := max (floorLog2 q) (-1022)
  let ulp := pow2 (e - 52)
  (roundHalfEven (q / ulp) : ℚ) * ulp

/-- A JavaScript number. -/
inductive JSNumber where
  | nan
  | infinity (negative : Bool)
  | finite (q : ℚ)
deriving DecidableEq

/-- The double that an operation with the exact result `q` returns: `q` itself when it
is a double, else the nearest double (round to nearest, ties to even), an infinity
when that is beyond the largest double. -/
def JSNumber.ofExact (q : ℚ) : JSNumber :=
  if representable q then JSNumber.finite q
  else
    let r := roundNearest q
    if pow2 1024 ≤ |r| then JSNumber.infinity (decide (r < 0)) else JSNumber.finite r

/-- The number literal of an integer that is a double. -/
def JSNumber.ofInt (n : Int) : JSNumber :=
  JSNumber.finite (n : ℚ)

/-- Unary minus. -/
def JSNumber.neg : JSNumber → JSNumber
  | JSNumber.nan => JSNumber.nan
  | JSNumber.infinity n => JSNumber.infinity (!n)
  | JSNumber.finite q => JSNumber.finite (-q)

/-- The operator `+` on two numbers. -/
def JSNumber.add : JSNumber → JSNumber → JSNumber
  | JSNumber.nan, _ => JSNumber.nan
  | _, JSNumber.nan => JSNumber.nan
  | JSNumber.infinity n, JSNumber.infinity m =>
    if n = m then JSNumber.infinity n else JSNumber.nan
  | JSNumber.infinity n, JSNumber.finite _ => JSNumber.infinity n
  | JSNumber.finite _, JSNumber.infinity m => JSNumber.infinity m
  | JSNumber.finite a, JSNumber.finite b => JSNumber.ofExact (a + b)

/-- The operator `-` on two numbers: `a - b` is `a + (-b)`. -/
def JSNumber.sub (a b : JSNumber) : JSNumber :=
  JSNumber.add a (JSNumber.neg b)

/-- The operator `<` on two numbers: false when one of them is NaN. -/
def JSNumber.lt : JSNumber → JSNumber → Bool
  | JSNumber.nan, _ => false
  | _, JSNumber.nan => false
  | JSNumber.infinity n, JSNumber.infinity m => n && !m
  | JSNumber.infinity n, JSNumber.finite _ => n
  | JSNumber.finite _, JSNumber.infinity m => !m
  | JSNumber.finite a, JSNumber.finite b => decide (a < b)

/-- The operator `>` on two numbers: `a > b` is `b < a`. -/
def JSNumber.gt (a b : JSNumber) : Bool :=
  JSNumber.lt b a

/-- The operator `>=` on two numbers: false when one of them is NaN, else `!(a < b)`. -/
def JSNumber.ge (a b : JSNumber) : Bool :=
  match a, b with
  | JSNumber.nan, _ => false
  | _, JSNumber.nan => false
  | _, _ => !JSNumber.lt a b

/-- The operator `==` on two numbers: false when one of them is NaN. -/
def JSNumber.eq (a b : JSNumber) : Bool :=
  match a, b with
  | JSNumber.nan, _ => false
  | _, JSNumber.nan => false
  | _, _ => decide (a = b)

/-- A key that orders the numbers other than NaN as `<` does: negative infinity, the
finite numbers by value, positive infinity (NaN is placed below them all). -/
def JSNumber.key : JSNumber → ℤ ×ₗ ℚ
  | JSNumber.nan => toLex (-2, 0)
  | JSNumber.infinity true => toLex (-1, 0)
  | JSNumber.finite q => toLex (0, q)
  | JSNumber.infinity false => toLex (1, 0)

/-- The double written `0.3`: `5404319552844595 / 2 ^ 54`. -/
def JSNumber.threeTenths : JSNumber :=
  JSNumber.finite (5404319552844595 / 18014398509481984)

namespace Float64

/-- A task object whose `cost` is any JavaScript number: the constructor of `Task`
stores the `cost` it is given without a check. -/
structure Task where
  addr : Nat
  cls : TaskClass
  id : String
  description : String
  cost : JSNumber
deriving DecidableEq

/-- The class `TaskController`: the private array `#tasks`. -/
structure TaskController where
  tasks : List Task
deriving DecidableEq

/-- `getTasks()`: a copy of `#tasks`. -/
def TaskController.getTasks (c : TaskController) : List Task :=
  c.tasks

/-- The comparator of the key `"description"`; `a > b` on strings is `b < a`. -/
def compareDescription (a b : Task) : Int :=
  if jsStringLt a.description b.description then -1
  else if jsStringLt b.description a.description then 1
  else 0

/-- The comparator of the key `"cost"`. -/
def compareCost (a b : Task) : Int :=
  if JSNumber.gt a.cost b.cost then -1
  else if JSNumber.lt a.cost b.cost then 1
  else 0

/-- The comparator of the key `"status"`. Its first step is the call
`a.isCompleted()`; no class defines a method `isCompleted`, so the call throws. -/
def compareStatus (_a _b : Task) : Except String Int :=
  Except.error "TypeError: a.isCompleted is not a function"

/-- `getTasksSortedBy(value)`: the controller after the call (the sort is in place)
together with the value returned or the exception thrown; `value = none` is a key that
is absent or not a string. A sort that throws leaves `#tasks` as it was. -/
def TaskController.getTasksSortedBy (c : TaskController) (value : Option String) :
    TaskController × Except String (List Task) :=
  match value with
  | some "description" =>
    let sorted := arraySort compareDescription c.tasks
    (⟨sorted⟩, Except.ok sorted)
  | some "status" =>
    match arraySortThrowing compareStatus c.tasks with
    | Except.ok sorted => (⟨sorted⟩, Except.ok sorted)
    | Except.error e => (c, Except.error e)
  | some "cost" =>
    let sorted := arraySort compareCost c.tasks
    (⟨sorted⟩, Except.ok sorted)
  | _ => (c, Except.ok c.tasks)

/-- The record `{ balance, income, expenses }` held in `#budget`. -/
structure BudgetRecord where
  balance : JSNumber
  income : JSNumber
  expenses : JSNumber
deriving DecidableEq

/-- The class `BudgetController`: the private fields `#taskController` and `#budget`. -/
structure BudgetController where
  taskController : TaskController
  budget : BudgetRecord
deriving DecidableEq

/-- The constructor of `BudgetController`. -/
def BudgetController.new (initialBalance : JSNumber) : BudgetController :=
  { taskController := ⟨[]⟩
    budget := { balance := initialBalance, income := JSNumber.ofInt 10,
                expenses := JSNumber.ofInt 5 } }

/-- The getter `income`. -/
def BudgetController.income (b : BudgetController) : JSNumber :=
  b.budget.income

/-- The getter `expenses`. -/
def BudgetController.expenses (b : BudgetController) : JSNumber :=
  b.budget.expenses

/-- The getter `balance`: `this.income - this.expenses`. -/
def BudgetController.balance (b : BudgetController) : JSNumber :=
  JSNumber.sub b.income b.expenses

/-- `calculateBalance()`: `balance + income - expenses`, evaluated from the left. -/
def BudgetController.calculateBalance (b : BudgetController) : JSNumber :=
  JSNumber.sub (JSNumber.add b.budget.balance b.budget.income) b.budget.expenses

/-- A task object of class `ExpenseTask` with the given identity, description and
cost; its `id` is "id" followed by the description. -/
def sampleTask (addr : Nat) (description : String) (cost : JSNumber) : Task :=
  { addr := addr, cls := TaskClass.ExpenseTask, id := "id" ++ description,
    description := description, cost := cost }

/-- A registry with the costs 1, NaN, 2 in insertion order. -/
def nanRegistry : TaskController :=
  ⟨[sampleTask 1 "a" (JSNumber.ofInt 1), sampleTask 2 "b" JSNumber.nan,
    sampleTask 3 "c" (JSNumber.ofInt 2)]⟩

/-- A registry with the costs 15, 40.5, 15, Infinity, -3 in insertion order; the
descriptions of the first two tasks are the characters U+FF5E and U+1F600. -/
def mixedRegistry : TaskController :=
  ⟨[sampleTask 1 (String.singleton (Char.ofNat 65374)) (JSNumber.ofInt 15),
    sampleTask 2 (String.singleton (Char.ofNat 128512)) (JSNumber.finite (81 / 2)),
    sampleTask 3 "rent" (JSNumber.ofInt 15),
    sampleTask 4 "Rent" (JSNumber.infinity false),
    sampleTask 5 "" (JSNumber.ofInt (-3))]⟩

end Float64

/-- A task object with an integer cost, read as a task object with that number as
cost. -/
def Task.toFloat64 (t : Task) : Float64.Task :=
  { addr := t.addr, cls := t.cls, id := t.id, description := t.description,
    cost := JSNumber.ofInt t.cost }

/-- A registry of tasks with integer costs, read as a registry of tasks with numbers as
costs. -/
def TaskController.toFloat64 (c : TaskController) : Float64.TaskController :=
  ⟨c.tasks.map Task.toFloat64⟩

/-! ## Auxiliary facts -/

theorem any_id_iff (l : List Task) (task : Task) :
    l.any (fun t => t.id == task.id) = true ↔ ∃ t ∈ l, t.id = task.id := by
  simp [List.any_eq_true]

theorem any_id_false_iff (l : List Task) (task : Task) :
    l.any (fun t => t.id == task.id) = false ↔ ∀ t ∈ l, t.id ≠ task.id := by
  simp [List.any_eq_false]

theorem doneTask_ctl (w : World) (task : Task) (now : Nat) :
    (doneTask w task now).ctl = w.ctl := by
  unfold doneTask
  dsimp only
  split_ifs <;> rfl

theorem doneTask_completed (w : World) (task : Task) (now : Nat) :
    ((doneTask w task now).heap task).completed = true := by
  unfold doneTask
  dsimp only
  split_ifs with h1 h2 h2 <;> simp_all [Heap.set]

theorem unDoneTask_ctl (w : World) (task : Task) :
    ∃ w2, unDoneTask w task = Except.ok w2 ∧ w2.ctl = w.ctl ∧ w2.heap = w.heap := by
  unfold unDoneTask
  dsimp only
  cases List.find? (fun t => t.id == task.id) w.ctl.getTasks with
  | none => exact ⟨_, rfl, rfl, rfl⟩
  | some foundTask =>
    exact ⟨{ w with console := w.console ++ ["Task isn\x27t done before"] },
      by simp [Task.isDone], rfl, rfl⟩

theorem addOne_of_present (c : TaskController) (task : Task)
    (h : ∃ x ∈ c.tasks, x.id = task.id) : c.addOne task = c := by
  have h2 : c.tasks.any (fun t => t.id == task.id) = true := (any_id_iff _ _).2 h
  simp [TaskController.addOne, h2]

theorem addOne_of_absent (c : TaskController) (task : Task)
    (h : ∀ x ∈ c.tasks, x.id ≠ task.id) : c.addOne task = ⟨c.tasks ++ [task]⟩ := by
  have h2 : c.tasks.any (fun t => t.id == task.id) = false := (any_id_false_iff _ _).2 h
  simp [TaskController.addOne, h2]

theorem addOne_present_after (c : TaskController) (task : Task) :
    ∃ x ∈ (c.addOne task).tasks, x.id = task.id := by
  by_cases h : ∃ x ∈ c.tasks, x.id = task.id
  · rw [addOne_of_present c task h]; exact h
  · have h2 : ∀ x ∈ c.tasks, x.id ≠ task.id := by
      intro x hx hid; exact h ⟨x, hx, hid⟩
    rw [addOne_of_absent c task h2]
    exact ⟨task, by simp, rfl⟩

theorem addOne_uniqueIds (c : TaskController) (task : Task) (h : c.UniqueIds) :
    (c.addOne task).UniqueIds := by
  by_cases hp : ∃ x ∈ c.tasks, x.id = task.id
  · rw [addOne_of_present c task hp]; exact h
  · have h2 : ∀ x ∈ c.tasks, x.id ≠ task.id := by
      intro x hx hid; exact hp ⟨x, hx, hid⟩
    rw [addOne_of_absent c task h2]
    unfold TaskController.UniqueIds at *
    simp only [List.map_append, List.map_cons, List.map_nil]
    rw [List.nodup_append]
    refine ⟨h, List.nodup_singleton _, ?_⟩
    intro a ha hb
    simp only [List.mem_singleton] at hb
    obtain ⟨x, hx, hxa⟩ := List.mem_map.1 ha
    exact h2 x hx (hxa.trans hb)

theorem addTasks_uniqueIds (tasks : List Task) :
    ∀ c : TaskController, c.UniqueIds → (c.addTasks tasks).UniqueIds := by
  induction tasks with
  | nil => intro c h; exact h
  | cons t ts ih =>
    intro c h
    exact ih (c.addOne t) (addOne_uniqueIds c t h)

theorem deleteTask_uniqueIds (c : TaskController) (task : Task) (h : c.UniqueIds) :
    (c.deleteTask task).UniqueIds := by
  unfold TaskController.UniqueIds at *
  exact List.Nodup.sublist (List.Sublist.map _ (List.filter_sublist _)) h

theorem arraySort_perm {α : Type} (cmp : α → α → Int) (l : List α) :
    (arraySort cmp l).Perm l :=
  List.perm_insertionSort _ l

theorem orderedInsertThrowing_perm {α : Type} (cmp : α → α → Except String Int) (a : α) :
    ∀ (l r : List α), orderedInsertThrowing cmp a l = Except.ok r → r.Perm (a :: l) := by
  intro l
  induction l with
  | nil =>
    intro r h
    simp only [orderedInsertThrowing, Except.ok.injEq] at h
    subst h; exact List.Perm.refl _
  | cons b l ih =>
    intro r h
    unfold orderedInsertThrowing at h
    cases hc : cmp a b with
    | error e => rw [hc] at h; cases h
    | ok v =>
      rw [hc] at h
      dsimp only at h
      by_cases hv : v ≤ 0
      · rw [if_pos hv] at h
        cases h; exact List.Perm.refl _
      · rw [if_neg hv] at h
        cases hr : orderedInsertThrowing cmp a l with
        | error e => rw [hr] at h; cases h
        | ok r2 =>
          rw [hr] at h
          cases h
          exact ((ih r2 hr).cons b).trans (List.Perm.swap a b l)

theorem arraySortThrowing_perm {α : Type} (cmp : α → α → Except String Int) :
    ∀ (l r : List α), arraySortThrowing cmp l = Except.ok r → r.Perm l := by
  intro l
  induction l with
  | nil =>
    intro r h
    simp only [arraySortThrowing, Except.ok.injEq] at h
    subst h; exact List.Perm.refl _
  | cons a l ih =>
    intro r h
    unfold arraySortThrowing at h
    cases hs : arraySortThrowing cmp l with
    | error e => rw [hs] at h; cases h
    | ok s2 =>
      rw [hs] at h
      exact (orderedInsertThrowing_perm cmp a s2 r h).trans ((ih s2 hs).cons a)

theorem getTasksSortedBy_perm (c : TaskController) (value : Option String) :
    (c.getTasksSortedBy value).1.tasks.Perm c.tasks := by
  unfold TaskController.getTasksSortedBy
  split
  · exact arraySort_perm _ _
  · cases hs : arraySortThrowing compareStatus c.tasks with
    | error e => exact List.Perm.refl _
    | ok s2 => exact arraySortThrowing_perm _ _ _ hs
  · exact arraySort_perm _ _
  · exact List.Perm.refl _

theorem getTasksSortedBy_uniqueIds (c : TaskController) (value : Option String)
    (h : c.UniqueIds) : (c.getTasksSortedBy value).1.UniqueIds := by
  unfold TaskController.UniqueIds at *
  exact ((getTasksSortedBy_perm c value).map Task.id).nodup_iff.2 h

theorem filter_id_split (l : List Task) (task : Task) (hnd : (l.map Task.id).Nodup)
    (hin : ∃ x ∈ l, x.id = task.id) :
    ∃ l1 x l2, l = l1 ++ x :: l2 ∧ x.id = task.id ∧
      l.filter (fun item => item.id != task.id) = l1 ++ l2 := by
  obtain ⟨x, hx, hid⟩ := hin
  obtain ⟨l1, l2, rfl⟩ := List.append_of_mem hx
  refine ⟨l1, x, l2, rfl, hid, ?_⟩
  simp only [List.map_append, List.map_cons] at hnd
  have h1 : ∀ y ∈ l1, y.id ≠ task.id := by
    intro y hy hy2
    have hd := (List.nodup_append.1 hnd).2.2
    exact hd (List.mem_map_of_mem Task.id hy) (by rw [hy2, ← hid]; exact List.mem_cons_self _ _)
  have h2 : ∀ y ∈ l2, y.id ≠ task.id := by
    intro y hy hy2
    have hd := (List.nodup_cons.1 (List.nodup_append.1 hnd).2.1).1
    exact hd (by rw [hid, ← hy2]; exact List.mem_map_of_mem Task.id hy)
  have f1 : l1.filter (fun item => item.id != task.id) = l1 :=
    List.filter_eq_self.2 (fun y hy => by simpa using h1 y hy)
  have f2 : l2.filter (fun item => item.id != task.id) = l2 :=
    List.filter_eq_self.2 (fun y hy => by simpa using h2 y hy)
  rw [List.filter_append, f1, List.filter_cons_of_neg (by simpa using hid), f2]

theorem doneTask_of_completed (w : World) (task : Task) (now : Nat)
    (hin : ∃ x ∈ w.ctl.getTasks, x.id = task.id) (hc : (w.heap task).completed = true) :
    doneTask w task now = { w with console := w.console ++ ["Task is already done"] } := by
  have h2 : w.ctl.getTasks.any (fun t => t.id == task.id) = true := (any_id_iff _ _).2 hin
  simp [doneTask, h2, hc]

theorem compareCost_le_iff (a b : Task) : compareCost a b ≤ 0 ↔ b.cost ≤ a.cost := by
  unfold compareCost
  split_ifs with h1 h2 <;> simp <;> omega

theorem jsStringLe_iff (a b : String) :
    jsStringLe a b = true ↔ toUTF16 a ≤ toUTF16 b := by
  simp [jsStringLe, jsStringLt]

theorem jsStringLt_iff (a b : String) :
    jsStringLt a b = true ↔ toUTF16 a < toUTF16 b := by
  simp [jsStringLt]

theorem compareDescription_le_iff (a b : Task) :
    compareDescription a b ≤ 0 ↔ jsStringLe a.description b.description = true := by
  unfold compareDescription
  split_ifs with h1 h2
  · have := le_of_lt ((jsStringLt_iff _ _).1 h1)
    simp [jsStringLe_iff, this]
  · simp [jsStringLe, h2]
  · simp [jsStringLe, h2]

theorem adjacent_of_pairwise {α : Type} {R : α → α → Prop} (l : List α)
    (h : l.Pairwise R) (i : Nat) (a b : α) (ha : l[i]? = some a) (hb : l[i + 1]? = some b) : R a b := by
  obtain ⟨hi, rfl⟩ := List.getElem?_eq_some.1 ha
  obtain ⟨hj, rfl⟩ := List.getElem?_eq_some.1 hb
  exact List.pairwise_iff_getElem.1 h i (i + 1) hi hj (Nat.lt_succ_self i)

theorem arraySort_stable {α : Type} (cmp : α → α → Int) (p : α → Bool)
    (hp : ∀ a b, p a = true → p b = true → cmp a b ≤ 0) (l : List α) :
    (arraySort cmp l).filter p = l.filter p := by
  have hpw : (l.filter p).Pairwise (fun a b => cmp a b ≤ 0) :=
    List.pairwise_of_forall_mem_list (fun a ha b hb =>
      hp a b (List.mem_filter.1 ha).2 (List.mem_filter.1 hb).2)
  have hsub : (l.filter p).Sublist (arraySort cmp l) :=
    List.sublist_insertionSort hpw (List.filter_sublist l)
  have hsub2 : (l.filter p).Sublist ((arraySort cmp l).filter p) := by
    have := hsub.filter p
    simpa only [List.filter_filter, Bool.and_self] using this
  have hlen : ((arraySort cmp l).filter p).length = (l.filter p).length :=
    ((arraySort_perm cmp l).filter p).length_eq
  exact (hsub2.eq_of_length hlen.symm).symm

theorem JSNumber.ge_iff_key (x y : JSNumber) (hx : x ≠ JSNumber.nan)
    (hy : y ≠ JSNumber.nan) : JSNumber.ge x y = true ↔ y.key ≤ x.key := by
  cases x with
  | nan => exact absurd rfl hx
  | infinity n =>
    cases y with
    | nan => exact absurd rfl hy
    | infinity m =>
      cases n <;> cases m <;>
        simp [JSNumber.ge, JSNumber.lt, JSNumber.key, Prod.Lex.le_iff]
    | finite q => cases n <;> simp [JSNumber.ge, JSNumber.lt, JSNumber.key, Prod.Lex.le_iff]
  | finite p =>
    cases y with
    | nan => exact absurd rfl hy
    | infinity m => cases m <;> simp [JSNumber.ge, JSNumber.lt, JSNumber.key, Prod.Lex.le_iff]
    | finite q => simp [JSNumber.ge, JSNumber.lt, JSNumber.key, Prod.Lex.le_iff]

theorem JSNumber.lt_iff_key (x y : JSNumber) (hx : x ≠ JSNumber.nan)
    (hy : y ≠ JSNumber.nan) : JSNumber.lt x y = true ↔ x.key < y.key := by
  cases x with
  | nan => exact absurd rfl hx
  | infinity n =>
    cases y with
    | nan => exact absurd rfl hy
    | infinity m =>
      cases n <;> cases m <;> simp [JSNumber.lt, JSNumber.key, Prod.Lex.lt_iff]
    | finite q => cases n <;> simp [JSNumber.lt, JSNumber.key, Prod.Lex.lt_iff]
  | finite p =>
    cases y with
    | nan => exact absurd rfl hy
    | infinity m => cases m <;> simp [JSNumber.lt, JSNumber.key, Prod.Lex.lt_iff]
    | finite q => simp [JSNumber.lt, JSNumber.key, Prod.Lex.lt_iff]

theorem representable_intCast (n : Int) (h : n.natAbs < 2 ^ 53) :
    representable (n : ℚ) = true := by
  have h1 : isPow2 1 = true := by decide
  have h2 : oddPart n.natAbs < 2 ^ 53 := lt_of_le_of_lt (Nat.div_le_self _ _) h
  have h3 : |(n : ℚ)| < pow2 1024 := by
    have e : pow2 1024 = ((2 ^ 1024 : Nat) : ℚ) := by
      unfold pow2; rw [if_pos (by decide)]; rfl
    rw [e, ← Int.cast_abs, Int.abs_eq_natAbs, Int.cast_natCast, Nat.cast_lt]
    exact lt_trans h (Nat.pow_lt_pow_right (by decide) (by decide))
  simp only [representable, Rat.intCast_den, Rat.intCast_num, h1, Bool.true_and,
    Bool.and_eq_true, decide_eq_true_eq]
  exact ⟨⟨Nat.one_le_two_pow, h2⟩, h3⟩

theorem JSNumber.add_ofInt (a b : Int) (h : (a + b).natAbs < 2 ^ 53) :
    JSNumber.add (JSNumber.ofInt a) (JSNumber.ofInt b) = JSNumber.ofInt (a + b) := by
  have e : ((a : ℚ) + (b : ℚ)) = ((a + b : Int) : ℚ) := by push_cast; rfl
  simp only [JSNumber.add, JSNumber.ofInt, JSNumber.ofExact, e, representable_intCast _ h,
    if_true]

theorem JSNumber.sub_ofInt (a b : Int) (h : (a - b).natAbs < 2 ^ 53) :
    JSNumber.sub (JSNumber.ofInt a) (JSNumber.ofInt b) = JSNumber.ofInt (a - b) := by
  have e : ((a : ℚ) + -(b : ℚ)) = ((a - b : Int) : ℚ) := by push_cast; ring
  simp only [JSNumber.sub, JSNumber.neg, JSNumber.add, JSNumber.ofInt, JSNumber.ofExact, e,
    representable_intCast _ h, if_true]

/-- Neither `x >= NaN` nor `NaN >= x` holds, whatever `x` is. -/
theorem JSNumber.ge_nan (x : JSNumber) :
    JSNumber.ge x JSNumber.nan = false ∧ JSNumber.ge JSNumber.nan x = false := by
  cases x <;> exact ⟨rfl, rfl⟩

/-- Rounding at work: `0.1 + 0.2` is `0.30000000000000004`, `2 ^ 53 + 1` is `2 ^ 53`,
`2 ^ 53 + 3` is `2 ^ 53 + 4`, and `2 ^ 1023 + 2 ^ 1023` is `Infinity`. -/
theorem JSNumber.add_rounds :
    JSNumber.add (JSNumber.finite (3602879701896397 / 36028797018963968))
        (JSNumber.finite (3602879701896397 / 18014398509481984)) =
      JSNumber.finite (1351079888211149 / 4503599627370496) ∧
    JSNumber.add (JSNumber.ofInt 9007199254740992) (JSNumber.ofInt 1) =
      JSNumber.ofInt 9007199254740992 ∧
    JSNumber.add (JSNumber.ofInt 9007199254740992) (JSNumber.ofInt 3) =
      JSNumber.ofInt 9007199254740996 ∧
    JSNumber.add (JSNumber.finite (pow2 1023)) (JSNumber.finite (pow2 1023)) =
      JSNumber.infinity false := by
  decide!

theorem orderedInsert_congr {α : Type} (r s : α → α → Prop) [DecidableRel r]
    [DecidableRel s] (a : α) :
    ∀ l : List α, (∀ b ∈ l, (r a b ↔ s a b)) →
      l.orderedInsert r a = l.orderedInsert s a := by
  intro l
  induction l with
  | nil => intro _; rfl
  | cons b l ih =>
    intro h
    have hb : r a b ↔ s a b := h b (List.mem_cons_self b l)
    have ht := ih (fun c hc => h c (List.mem_cons_of_mem b hc))
    by_cases hr : r a b
    · simp [List.orderedInsert, hr, hb.1 hr]
    · have hs : ¬ s a b := fun x => hr (hb.2 x)
      simp [List.orderedInsert, hr, hs, ht]

theorem insertionSort_congr {α : Type} (r s : α → α → Prop) [DecidableRel r]
    [DecidableRel s] :
    ∀ l : List α, (∀ a ∈ l, ∀ b ∈ l, (r a b ↔ s a b)) →
      l.insertionSort r = l.insertionSort s := by
  intro l
  induction l with
  | nil => intro _; rfl
  | cons a l ih =>
    intro h
    have ht := ih (fun x hx y hy =>
      h x (List.mem_cons_of_mem a hx) y (List.mem_cons_of_mem a hy))
    simp only [List.insertionSort]
    rw [ht]
    exact orderedInsert_congr r s a _ (fun b hb =>
      h a (List.mem_cons_self a l) b
        (List.mem_cons_of_mem a ((List.mem_insertionSort s).1 hb)))

theorem float64_compareCost_le_iff (a b : Float64.Task) (ha : a.cost ≠ JSNumber.nan)
    (hb : b.cost ≠ JSNumber.nan) :
    Float64.compareCost a b ≤ 0 ↔ JSNumber.ge a.cost b.cost = true := by
  rw [JSNumber.ge_iff_key _ _ ha hb]
  unfold Float64.compareCost JSNumber.gt
  split_ifs with h1 h2
  · have := le_of_lt ((JSNumber.lt_iff_key _ _ hb ha).1 h1)
    simp [this]
  · have := (JSNumber.lt_iff_key _ _ ha hb).1 h2
    simp [not_le.2 this]
  · have : ¬ a.cost.key < b.cost.key := fun x => h2 ((JSNumber.lt_iff_key _ _ ha hb).2 x)
    simp [not_lt.1 this]

theorem float64_arraySort_cost_pairwise (l : List Float64.Task)
    (h : ∀ t ∈ l, t.cost ≠ JSNumber.nan) :
    (arraySort Float64.compareCost l).Pairwise
      (fun a b => JSNumber.ge a.cost b.cost = true) := by
  haveI : IsTotal Float64.Task (fun a b => b.cost.key ≤ a.cost.key) :=
    ⟨fun a b => le_total _ _⟩
  haveI : IsTrans Float64.Task (fun a b => b.cost.key ≤ a.cost.key) :=
    ⟨fun a b c h1 h2 => le_trans h2 h1⟩
  have e : arraySort Float64.compareCost l =
      l.insertionSort (fun a b => b.cost.key ≤ a.cost.key) :=
    insertionSort_congr _ _ l (fun a ha b hb => by
      rw [float64_compareCost_le_iff a b (h a ha) (h b hb),
        JSNumber.ge_iff_key _ _ (h a ha) (h b hb)])
  rw [e]
  have hs := List.sorted_insertionSort (fun a b : Float64.Task => b.cost.key ≤ a.cost.key) l
  refine List.Pairwise.imp_of_mem ?_ hs
  intro a b ha hb hab
  have ha2 := h a ((List.mem_insertionSort _).1 ha)
  have hb2 := h b ((List.mem_insertionSort _).1 hb)
  exact (JSNumber.ge_iff_key _ _ ha2 hb2).2 hab

theorem float64_compareDescription_le_iff (a b : Float64.Task) :
    Float64.compareDescription a b ≤ 0 ↔
      jsStringLe a.description b.description = true := by
  unfold Float64.compareDescription
  split_ifs with h1 h2
  · have := le_of_lt ((jsStringLt_iff _ _).1 h1)
    simp [jsStringLe_iff, this]
  · simp [jsStringLe, h2]
  · simp [jsStringLe, h2]

theorem float64_arraySort_description_pairwise (l : List Float64.Task) :
    (arraySort Float64.compareDescription l).Pairwise
      (fun a b => jsStringLe a.description b.description = true) := by
  haveI : IsTotal Float64.Task (fun a b => Float64.compareDescription a b ≤ 0) :=
    ⟨fun a b => by
      simp only [float64_compareDescription_le_iff, jsStringLe_iff]; exact le_total _ _⟩
  haveI : IsTrans Float64.Task (fun a b => Float64.compareDescription a b ≤ 0) :=
    ⟨fun a b c => by
      simp only [float64_compareDescription_le_iff, jsStringLe_iff]
      exact fun h1 h2 => le_trans h1 h2⟩
  have h := List.sorted_insertionSort
    (fun a b => Float64.compareDescription a b ≤ 0) l
  exact List.Pairwise.imp
    (fun {a b} hab => (float64_compareDescription_le_iff a b).1 hab) h

theorem compareCost_toFloat64 (a b : Task) :
    Float64.compareCost a.toFloat64 b.toFloat64 = compareCost a b := by
  simp only [Float64.compareCost, compareCost, Task.toFloat64, JSNumber.gt, JSNumber.lt,
    JSNumber.ofInt, Int.cast_lt, gt_iff_lt, decide_eq_true_eq]

theorem compareDescription_toFloat64 (a b : Task) :
    Float64.compareDescription a.toFloat64 b.toFloat64 = compareDescription a b :=
  rfl

theorem getTasksSortedBy_toFloat64 (c : TaskController) (value : Option String)
    (hv : value ≠ some "status") :
    (c.getTasksSortedBy value).1.toFloat64 = (c.toFloat64.getTasksSortedBy value).1 := by
  unfold TaskController.getTasksSortedBy Float64.TaskController.getTasksSortedBy
  split
  · simp only [TaskController.toFloat64, arraySort]
    congr 1
    exact List.map_insertionSort _ _ _ _ (fun a _ b _ => by
      rw [compareDescription_toFloat64])
  · exact absurd rfl hv
  · simp only [TaskController.toFloat64, arraySort]
    congr 1
    exact List.map_insertionSort _ _ _ _ (fun a _ b _ => by
      rw [compareCost_toFloat64])
  · rfl

/-! ## Completion operations -/

/-- C1: in the scenario of the specification (a new controller with initial balance 0,
`addTask` of an `ExpenseTask` of cost 15, then `doneTask` on it) the code marks the task
completed but never calls `makeDone`: `expenses` stays 5 (the claim says 20), `balance`
and `calculateBalance()` stay 5 (the claim says -10); `makeDone` on the budget record
would have given `expenses = 20`. The same holds for an `IncomeTask`: `income` stays 10. -/
theorem doneTask_expense_scenario :
    ((doneTask sampleWorld sampleExpense 1).heap sampleExpense).completed = true ∧
    (doneTask sampleWorld sampleExpense 1).ctl.expenses = 5 ∧
    (doneTask sampleWorld sampleExpense 1).ctl.income = 10 ∧
    (doneTask sampleWorld sampleExpense 1).ctl.balance = 5 ∧
    (doneTask sampleWorld sampleExpense 1).ctl.calculateBalance = 5 ∧
    (ExpenseTask.makeDone sampleExpense sampleWorld.ctl.budget).expenses = 20 ∧
    (doneTask (addTask (World.new 0) [sampleIncome]) sampleIncome 1).ctl.income = 10 := by
  decide

/-- C2: in the scenario of the specification (`addTask` of an `ExpenseTask` of cost 15,
`doneTask`, `unDoneTask`) the code makes no round trip. `doneTask` leaves `expenses` at
5 (the specification: 20), and `unDoneTask` takes the branch "Task isn't done before":
it reverts nothing and leaves the task completed. The call `foundTask.makeUnDone()`
behind that branch passes no budget and throws for the task. From the state that
`doneTask` would leave had it applied the effect (`expenses` 20, task completed),
`unDoneTask` leaves `expenses` at 20, `balance` and `calculateBalance()` at -10 (a
reversal gives 5, 5 and 5). -/
theorem unDoneTask_reverts_nothing :
    sampleWorld.ctl.expenses = 5 ∧
    (doneTask sampleWorld sampleExpense 1).ctl.expenses = 5 ∧
    (unDoneTask (doneTask sampleWorld sampleExpense 1) sampleExpense).toOption.map
        (fun w => (w.ctl.expenses, w.console, (w.heap sampleExpense).completed)) =
      some (5, ["Task isn\x27t done before"], true) ∧
    Task.makeUnDone sampleExpense none =
      Except.error "TypeError: cannot read properties of undefined" ∧
    sampleAppliedWorld.ctl.getTasks = [sampleExpense] ∧
    (sampleAppliedWorld.heap sampleExpense).completed = true ∧
    sampleAppliedWorld.ctl.expenses = 20 ∧
    (unDoneTask sampleAppliedWorld sampleExpense).toOption.map
        (fun w => (w.ctl.income, w.ctl.expenses, w.ctl.balance, w.ctl.calculateBalance,
          w.console)) =
      some (10, 20, -10, -10, ["Task isn\x27t done before"]) :=
  ⟨by decide, by decide, by decide, rfl, by decide, by decide, by decide, by decide⟩

/-- C3: in the scenario `addTask`, `doneTask`, `unDoneTask` on an `ExpenseTask` the task
is completed after `doneTask` (flag `true`, date set), but `unDoneTask` takes the branch
"Task isn't done before" and returns with the task still completed and its date still
set (the claim says: back in NotDone), and a following `doneTask` is reported as
"Task is already done" (the claim says: accepted again). -/
theorem unDoneTask_keeps_completed :
    (doneTask sampleWorld sampleExpense 1).heap sampleExpense = ⟨true, some 1⟩ ∧
    (unDoneTask (doneTask sampleWorld sampleExpense 1) sampleExpense).toOption.map
        (fun w => w.heap sampleExpense) = some ⟨true, some 1⟩ ∧
    (unDoneTask (doneTask sampleWorld sampleExpense 1) sampleExpense).toOption.map
        (fun w => w.console) = some ["Task isn\x27t done before"] ∧
    (unDoneTask (doneTask sampleWorld sampleExpense 1) sampleExpense).toOption.map
        (fun w => ((doneTask w sampleExpense 2).heap sampleExpense,
          (doneTask w sampleExpense 2).console)) =
      some (⟨true, some 1⟩, ["Task isn\x27t done before", "Task is already done"]) := by
  decide

/-- C4: on a new controller with an empty registry, `doneTask` on a task that was never
added writes the line "isn't recognized" and then goes on (the `if` has no `return`):
the task, untouched before, is completed with its date set afterwards (the claim says:
no state change). `unDoneTask` on the same task does return after the line, with the
task and the controller as before. -/
theorem doneTask_unregistered_scenario :
    (World.new 0).ctl.getTasks = [] ∧
    (World.new 0).heap sampleExpense = TaskFields.initial ∧
    (doneTask (World.new 0) sampleExpense 1).console = [notRecognized sampleExpense] ∧
    (doneTask (World.new 0) sampleExpense 1).heap sampleExpense = ⟨true, some 1⟩ ∧
    (unDoneTask (World.new 0) sampleExpense).toOption.map
        (fun w => (w.heap sampleExpense, w.ctl, w.console)) =
      some (TaskFields.initial, (World.new 0).ctl, [notRecognized sampleExpense]) := by
  decide

/-! ## The registry -/

/-- C5: when the registry already holds a task with the `id` of `t` (the same object or
another one), `addTask(t)` changes nothing: the world is the same, so the registry has
the same length and the same tasks in the same order, and the task found under that
`id` is the one stored before. For every world and task, `addTask(u)` twice leaves the
world that a single `addTask(u)` leaves. -/
theorem addTask_same_id_noop (w : World) (t : Task)
    (h : ∃ x ∈ w.ctl.getTasks, x.id = t.id) :
    addTask w [t] = w ∧
    (addTask w [t]).ctl.getTasks.length = w.ctl.getTasks.length ∧
    (addTask w [t]).ctl.getTasks = w.ctl.getTasks ∧
    (addTask w [t]).ctl.getTasks.find? (fun x => x.id == t.id) =
      w.ctl.getTasks.find? (fun x => x.id == t.id) ∧
    ∀ (v : World) (u : Task), addTask (addTask v [u]) [u] = addTask v [u] := by
  have key : ∀ (v : World) (u : Task), (∃ x ∈ v.ctl.getTasks, x.id = u.id) →
      addTask v [u] = v := by
    intro v u hu
    have e : v.ctl.taskController.addTasks [u] = v.ctl.taskController :=
      addOne_of_present v.ctl.taskController u hu
    simp only [addTask, e]
  have e1 := key w t h
  refine ⟨e1, by rw [e1], by rw [e1], by rw [e1], ?_⟩
  intro v u
  exact key (addTask v [u]) u (addOne_present_after v.ctl.taskController u)

theorem addTask_same_id_noop_witness :
    (∃ x ∈ sampleWorld.ctl.getTasks, x.id = sampleClash.id) ∧
    (addTask sampleWorld [sampleClash]).ctl.getTasks = sampleWorld.ctl.getTasks ∧
    sampleWorld.ctl.getTasks = [sampleExpense] :=
  ⟨⟨sampleExpense, by decide, by decide⟩,
    (addTask_same_id_noop sampleWorld sampleClash ⟨sampleExpense, by decide, by decide⟩).2.2.1,
    by decide⟩

/-- C6: in every state that a new `TaskController` reaches by calls of `addTasks` (any
number of arguments, repeated objects and repeated ids included), `deleteTask` and
`getTasksSortedBy` (any key), no two tasks of the registry have the same `id`. -/
theorem reachable_uniqueIds (c : TaskController) (h : c.Reachable) : c.UniqueIds := by
  induction h with
  | new => exact List.nodup_nil
  | addTasks c tasks _ ih => exact addTasks_uniqueIds tasks c ih
  | deleteTask c task _ ih => exact deleteTask_uniqueIds c task ih
  | getTasksSortedBy c value _ ih => exact getTasksSortedBy_uniqueIds c value ih

theorem reachable_uniqueIds_witness :
    (((TaskController.new.addTasks
        [sampleExpense, sampleExpense, sampleClash, sampleIncome]).getTasksSortedBy
          (some "cost")).1.deleteTask sampleClash).UniqueIds ∧
    (TaskController.new.addTasks
        [sampleExpense, sampleExpense, sampleClash, sampleIncome]).tasks =
      [sampleExpense, sampleIncome] :=
  ⟨reachable_uniqueIds _
    (TaskController.Reachable.deleteTask _ _
      (TaskController.Reachable.getTasksSortedBy _ _
        (TaskController.Reachable.addTasks _ _ TaskController.Reachable.new))),
    by decide⟩

/-- C7: for a task of the registry, the second of two consecutive calls of `doneTask`
changes nothing but the console, where it writes "Task is already done": the controller
(income, expenses, registry) and the fields of every task object (the `completed` flag
of `t` among them) are as the first call left them. -/
theorem doneTask_twice (w : World) (t : Task) (now later : Nat)
    (hin : t ∈ w.ctl.getTasks) :
    (doneTask (doneTask w t now) t later).ctl = (doneTask w t now).ctl ∧
    (doneTask (doneTask w t now) t later).heap = (doneTask w t now).heap ∧
    ((doneTask (doneTask w t now) t later).heap t).completed = true ∧
    (doneTask (doneTask w t now) t later).console =
      (doneTask w t now).console ++ ["Task is already done"] := by
  have e := doneTask_of_completed (doneTask w t now) t later
    (by rw [doneTask_ctl]; exact ⟨t, hin, rfl⟩) (doneTask_completed w t now)
  rw [e]
  exact ⟨rfl, rfl, doneTask_completed w t now, rfl⟩

theorem doneTask_twice_witness :
    sampleExpense ∈ sampleWorld.ctl.getTasks ∧
    (doneTask (doneTask sampleWorld sampleExpense 1) sampleExpense 2).heap =
      (doneTask sampleWorld sampleExpense 1).heap ∧
    (doneTask sampleWorld sampleExpense 1).heap sampleExpense = ⟨true, some 1⟩ :=
  ⟨by decide, (doneTask_twice sampleWorld sampleExpense 1 2 (by decide)).2.1, by decide⟩

/-- C8: for a task of the registry, `unDoneTask` returns normally through the branch
that writes "Task isn't done before": the controller (income, expenses, registry) and
the fields of every task object are exactly as before. This holds whatever the
completion fields of the task are, in particular for a task on which `doneTask` was
never called. -/
theorem unDoneTask_guarded (w : World) (t : Task) (hin : t ∈ w.ctl.getTasks) :
    unDoneTask w t =
      Except.ok { ctl := w.ctl, heap := w.heap,
                  console := w.console ++ ["Task isn\x27t done before"] } := by
  unfold unDoneTask
  dsimp only
  cases hf : List.find? (fun x => x.id == t.id) w.ctl.getTasks with
  | none =>
    have := List.find?_eq_none.1 hf t hin
    simp at this
  | some foundTask => simp [Task.isDone]

theorem unDoneTask_guarded_witness :
    sampleExpense ∈ sampleWorld.ctl.getTasks ∧
    sampleWorld.heap sampleExpense = TaskFields.initial ∧
    unDoneTask sampleWorld sampleExpense =
      Except.ok { ctl := sampleWorld.ctl, heap := sampleWorld.heap,
                  console := sampleWorld.console ++ ["Task isn\x27t done before"] } :=
  ⟨by decide, by decide, unDoneTask_guarded sampleWorld sampleExpense (by decide)⟩

/-- C9: when no task of the registry has the `id` of `t`, `deleteTask(t)` of the budget
controller only writes the line "Task <id> isn't recognized": the controller
(registry contents and order, income, expenses) and the task objects are exactly as
before. The method has no throwing statement; it is a total function. -/
theorem deleteTask_unregistered (w : World) (t : Task)
    (habs : ∀ x ∈ w.ctl.getTasks, x.id ≠ t.id) :
    deleteTask w t =
      { ctl := w.ctl, heap := w.heap, console := w.console ++ [notRecognized t] } := by
  have h2 : w.ctl.getTasks.any (fun x => x.id == t.id) = false :=
    (any_id_false_iff _ _).2 habs
  simp [deleteTask, h2]

theorem deleteTask_unregistered_witness :
    (∀ x ∈ sampleWorld.ctl.getTasks, x.id ≠ sampleIncome.id) ∧
    deleteTask sampleWorld sampleIncome =
      { ctl := sampleWorld.ctl, heap := sampleWorld.heap,
        console := sampleWorld.console ++ [notRecognized sampleIncome] } :=
  ⟨by decide, deleteTask_unregistered sampleWorld sampleIncome (by decide)⟩

/-- C10: when the registry holds a task with the `id` of `t`, the registry after
`deleteTask(t)` is the old one without the tasks of that `id`: no task with the `id` is
left, every other task is still there, the order is kept; when the ids of the registry
are unique, exactly one task is removed. The budget record (income, expenses), the
task objects (completed or not) and the console are unchanged. -/
theorem deleteTask_registered (w : World) (t : Task)
    (hin : ∃ x ∈ w.ctl.getTasks, x.id = t.id) :
    (deleteTask w t).ctl.getTasks = w.ctl.getTasks.filter (fun x => x.id != t.id) ∧
    (∀ x ∈ (deleteTask w t).ctl.getTasks, x.id ≠ t.id) ∧
    (∀ x ∈ w.ctl.getTasks, x.id ≠ t.id → x ∈ (deleteTask w t).ctl.getTasks) ∧
    ((deleteTask w t).ctl.getTasks).Sublist w.ctl.getTasks ∧
    (w.ctl.taskController.UniqueIds →
      ∃ l1 x l2, w.ctl.getTasks = l1 ++ x :: l2 ∧ x.id = t.id ∧
        (deleteTask w t).ctl.getTasks = l1 ++ l2) ∧
    (deleteTask w t).ctl.budget = w.ctl.budget ∧
    (deleteTask w t).ctl.income = w.ctl.income ∧
    (deleteTask w t).ctl.expenses = w.ctl.expenses ∧
    (deleteTask w t).heap = w.heap ∧
    (deleteTask w t).console = w.console := by
  have h2 : w.ctl.getTasks.any (fun x => x.id == t.id) = true := (any_id_iff _ _).2 hin
  have e : deleteTask w t =
      { w with ctl := { w.ctl with
          taskController := w.ctl.taskController.deleteTask t } } := by
    simp [deleteTask, h2]
  have e2 : (deleteTask w t).ctl.getTasks =
      w.ctl.getTasks.filter (fun x => x.id != t.id) := by
    rw [e]; rfl
  refine ⟨e2, ?_, ?_, ?_, ?_, by rw [e], by rw [e]; rfl, by rw [e]; rfl, by rw [e],
    by rw [e]⟩
  · intro x hx
    rw [e2] at hx
    simpa using (List.mem_filter.1 hx).2
  · intro x hx hne
    rw [e2]
    exact List.mem_filter.2 ⟨hx, by simpa using hne⟩
  · rw [e2]; exact List.filter_sublist _
  · intro hu
    rw [e2]
    exact filter_id_split _ t hu hin

theorem deleteTask_registered_witness :
    (∃ x ∈ (addTask sampleWorld [sampleIncome]).ctl.getTasks, x.id = sampleClash.id) ∧
    (addTask sampleWorld [sampleIncome]).ctl.getTasks = [sampleExpense, sampleIncome] ∧
    ((addTask sampleWorld [sampleIncome]).ctl.getTasks.map Task.id).Nodup ∧
    (deleteTask (addTask sampleWorld [sampleIncome]) sampleClash).ctl.getTasks =
      [sampleIncome] :=
  ⟨⟨sampleExpense, by decide, by decide⟩, by decide, by decide,
    ((deleteTask_registered (addTask sampleWorld [sampleIncome]) sampleClash
      ⟨sampleExpense, by decide, by decide⟩).1).trans (by decide)⟩

theorem arraySortThrowing_status (l : List Task) :
    (l = [] ∧ arraySortThrowing compareStatus l = Except.ok []) ∨
    (∃ x, l = [x] ∧ arraySortThrowing compareStatus l = Except.ok [x]) ∨
    (2 ≤ l.length ∧ arraySortThrowing compareStatus l =
      Except.error "TypeError: a.isCompleted is not a function") := by
  induction l with
  | nil => exact Or.inl ⟨rfl, rfl⟩
  | cons a l ih =>
    rcases ih with ⟨rfl, _⟩ | ⟨x, rfl, _⟩ | ⟨hlen, herr⟩
    · exact Or.inr (Or.inl ⟨a, rfl, rfl⟩)
    · exact Or.inr (Or.inr ⟨by simp, rfl⟩)
    · refine Or.inr (Or.inr ⟨by simp only [List.length_cons]; omega, ?_⟩)
      unfold arraySortThrowing
      rw [herr]

theorem getTasksSortedBy_status_of_two (c : TaskController) (h : 2 ≤ c.tasks.length) :
    c.getTasksSortedBy (some "status") =
      (c, Except.error "TypeError: a.isCompleted is not a function") := by
  rcases arraySortThrowing_status c.tasks with ⟨h0, _⟩ | ⟨x, h1, _⟩ | ⟨_, herr⟩
  · rw [h0] at h; simp at h
  · rw [h1] at h; simp at h
  · show (match arraySortThrowing compareStatus c.tasks with
        | Except.ok sorted => ((⟨sorted⟩ : TaskController), Except.ok sorted)
        | Except.error e => (c, Except.error e)) = _
    rw [herr]

theorem filterCallback_isIncome (b : Bool) (t : Task) :
    filterCallback ⟨none, some b, none⟩ t =
      decide (t.cls = if b then TaskClass.IncomeTask else TaskClass.ExpenseTask) := by
  cases b <;> cases h : t.cls <;> simp [filterCallback, TaskClass.instanceOf, h]

/-! ## Sorted retrieval -/

/-- C11, as the claim states it, fails for a cost that is NaN: on the registry with
the costs 1, NaN, 2 every comparison with NaN gives 0, `getTasksSortedBy("cost")`
returns the tasks in the order 1, NaN, 2, and neither `1 >= NaN` nor `NaN >= 2`
holds. -/
theorem getTasksSortedBy_cost_nan :
    (Float64.nanRegistry.getTasksSortedBy (some "cost")).2 =
      Except.ok (Float64.nanRegistry.getTasksSortedBy (some "cost")).1.tasks ∧
    (Float64.nanRegistry.getTasksSortedBy (some "cost")).1.tasks.map Float64.Task.cost =
      [JSNumber.ofInt 1, JSNumber.nan, JSNumber.ofInt 2] ∧
    JSNumber.ge (JSNumber.ofInt 1) JSNumber.nan = false ∧
    JSNumber.ge JSNumber.nan (JSNumber.ofInt 2) = false ∧
    Float64.compareCost (Float64.sampleTask 1 "a" (JSNumber.ofInt 1))
      (Float64.sampleTask 2 "b" JSNumber.nan) = 0 :=
  ⟨rfl, by decide!, by decide!, by decide!, by decide!⟩

/-- C11, amended: for every registry whose costs are numbers other than NaN (finite
doubles and the infinities), `getTasksSortedBy("cost")` returns normally; the returned
sequence is a permutation of the registry and its new internal order, and it is in
non-increasing order of cost: every task has a cost `>=` that of every later task, in
particular `result[i].cost >= result[i+1].cost` for all adjacent positions. -/
theorem getTasksSortedBy_cost_sorted (c : Float64.TaskController)
    (h : ∀ t ∈ c.tasks, t.cost ≠ JSNumber.nan) :
    ∃ l, (c.getTasksSortedBy (some "cost")).2 = Except.ok l ∧
      (c.getTasksSortedBy (some "cost")).1.getTasks = l ∧
      l.Perm c.getTasks ∧
      l.Pairwise (fun a b => JSNumber.ge a.cost b.cost = true) ∧
      ∀ (i : Nat) (a b : Float64.Task), l[i]? = some a → l[i + 1]? = some b →
        JSNumber.ge a.cost b.cost = true :=
  ⟨arraySort Float64.compareCost c.tasks, rfl, rfl, arraySort_perm _ _,
    float64_arraySort_cost_pairwise c.tasks h,
    fun i a b ha hb =>
      adjacent_of_pairwise _ (float64_arraySort_cost_pairwise c.tasks h) i a b ha hb⟩

theorem getTasksSortedBy_cost_sorted_witness :
    (∀ t ∈ Float64.mixedRegistry.tasks, t.cost ≠ JSNumber.nan) ∧
    Float64.mixedRegistry.getTasks.map Float64.Task.addr = [1, 2, 3, 4, 5] ∧
    ∃ l, (Float64.mixedRegistry.getTasksSortedBy (some "cost")).2 = Except.ok l ∧
      l.Pairwise (fun a b => JSNumber.ge a.cost b.cost = true) ∧
      l.map Float64.Task.addr = [4, 2, 1, 3, 5] := by
  obtain ⟨l, h1, h2, _, h4, _⟩ :=
    getTasksSortedBy_cost_sorted Float64.mixedRegistry (by decide!)
  refine ⟨by decide!, by decide!, l, h1, h4, ?_⟩
  rw [← h2]; decide!

/-- C12: for every registry, `getTasksSortedBy("description")` returns normally; the
returned sequence is a permutation of the registry and its new internal order, and it
is in non-decreasing order of description under the `<=` of JavaScript strings
(code unit by code unit): every task has a description `<=` that of every later
task, in particular `result[i].description <= result[i+1].description` for all
adjacent positions. On the sample registry the description U+1F600 (code units D83D
DE00) comes before U+FF5E. -/
theorem getTasksSortedBy_description_sorted (c : Float64.TaskController) :
    (∃ l, (c.getTasksSortedBy (some "description")).2 = Except.ok l ∧
      (c.getTasksSortedBy (some "description")).1.getTasks = l ∧
      l.Perm c.getTasks ∧
      l.Pairwise (fun a b => jsStringLe a.description b.description = true) ∧
      ∀ (i : Nat) (a b : Float64.Task), l[i]? = some a → l[i + 1]? = some b →
        jsStringLe a.description b.description = true) ∧
    Float64.mixedRegistry.getTasks.map Float64.Task.addr = [1, 2, 3, 4, 5] ∧
    (Float64.mixedRegistry.getTasksSortedBy (some "description")).1.getTasks.map
      Float64.Task.addr = [5, 4, 3, 2, 1] ∧
    toUTF16 (String.singleton (Char.ofNat 128512)) = [55357, 56832] ∧
    toUTF16 (String.singleton (Char.ofNat 65374)) = [65374] ∧
    jsStringLt (String.singleton (Char.ofNat 128512))
      (String.singleton (Char.ofNat 65374)) = true :=
  ⟨⟨arraySort Float64.compareDescription c.tasks, rfl, rfl, arraySort_perm _ _,
      float64_arraySort_description_pairwise c.tasks,
      fun i a b ha hb =>
        adjacent_of_pairwise _ (float64_arraySort_description_pairwise c.tasks) i a b ha hb⟩,
    by decide, by decide, by decide, by decide, by decide⟩

/-- C13: on a registry of three tasks, and on the registry of a controller with one
completed and one incomplete task, `getTasksSortedBy("status")` throws the `TypeError`
of the call `a.isCompleted()` and leaves the registry in insertion order (the claim
says: succeeds, completed tasks first). Only a registry of fewer than two tasks, where
the comparator is never called, is returned. -/
theorem getTasksSortedBy_status_throws :
    (sampleRegistry.getTasksSortedBy (some "status")).2 =
      Except.error "TypeError: a.isCompleted is not a function" ∧
    (sampleRegistry.getTasksSortedBy (some "status")).1 = sampleRegistry ∧
    sampleDoneWorld.ctl.getTasks = [sampleIncome, sampleExpense] ∧
    (sampleDoneWorld.heap sampleIncome).completed = true ∧
    (sampleDoneWorld.heap sampleExpense).completed = false ∧
    (sampleDoneWorld.ctl.taskController.getTasksSortedBy (some "status")).2 =
      Except.error "TypeError: a.isCompleted is not a function" ∧
    ((TaskController.new.addTasks [sampleExpense]).getTasksSortedBy (some "status")).2 =
      Except.ok [sampleExpense] :=
  ⟨rfl, rfl, rfl, rfl, rfl, rfl, rfl⟩

/-- C16: for the keys `"description"` and `"cost"` and every registry (costs of any
number), `getTasks()` called right after `getTasksSortedBy(key)` returns the sequence
that `getTasksSortedBy(key)` returned; that sequence is a permutation of the registry
before the call, sorted by description, and sorted by cost when no cost is NaN. On
the sample registry, stored in the insertion order 1, 2, 3, 4, 5, `getTasks()` gives
4, 2, 1, 3, 5 after the sort by cost and 5, 4, 3, 2, 1 after the sort by description,
not the insertion order. -/
theorem getTasks_after_getTasksSortedBy (c : Float64.TaskController) :
    (∃ l, (c.getTasksSortedBy (some "description")).2 = Except.ok l ∧
      (c.getTasksSortedBy (some "description")).1.getTasks = l ∧
      l.Perm c.getTasks ∧
      l.Pairwise (fun a b => jsStringLe a.description b.description = true)) ∧
    (∃ l, (c.getTasksSortedBy (some "cost")).2 = Except.ok l ∧
      (c.getTasksSortedBy (some "cost")).1.getTasks = l ∧
      l.Perm c.getTasks ∧
      ((∀ t ∈ c.getTasks, t.cost ≠ JSNumber.nan) →
        l.Pairwise (fun a b => JSNumber.ge a.cost b.cost = true))) ∧
    Float64.mixedRegistry.getTasks.map Float64.Task.addr = [1, 2, 3, 4, 5] ∧
    (Float64.mixedRegistry.getTasksSortedBy (some "cost")).1.getTasks.map
      Float64.Task.addr = [4, 2, 1, 3, 5] ∧
    (Float64.mixedRegistry.getTasksSortedBy (some "description")).1.getTasks.map
      Float64.Task.addr = [5, 4, 3, 2, 1] ∧
    (Float64.mixedRegistry.getTasksSortedBy (some "cost")).1.getTasks ≠
      Float64.mixedRegistry.getTasks :=
  ⟨⟨arraySort Float64.compareDescription c.tasks, rfl, rfl, arraySort_perm _ _,
      float64_arraySort_description_pairwise c.tasks⟩,
    ⟨arraySort Float64.compareCost c.tasks, rfl, rfl, arraySort_perm _ _,
      fun h => float64_arraySort_cost_pairwise c.tasks h⟩,
    by decide, by decide!, by decide, by decide!⟩

/-- C20: for every key other than `"status"`, `getTasksSortedBy` returns normally; the
returned sequence is the new internal order and a permutation of the registry before
the call (same length, the same tasks, none lost or duplicated). For a key that is not
`"description"` or `"cost"` (absent included) it is exactly the internal order and the
registry is untouched. The sort is stable: for `"cost"` the tasks of any one cost, and
for `"description"` the tasks of any one description, keep their sequence, and two
tasks that tie under the comparator keep their relative order. -/
theorem getTasksSortedBy_perm_stable (c : TaskController) (value : Option String)
    (hv : value ≠ some "status") :
    ∃ l, (c.getTasksSortedBy value).2 = Except.ok l ∧
      (c.getTasksSortedBy value).1.getTasks = l ∧
      l.Perm c.getTasks ∧
      l.length = c.getTasks.length ∧
      (∀ t, t ∈ l ↔ t ∈ c.getTasks) ∧
      (value ≠ some "description" → value ≠ some "cost" →
        l = c.getTasks ∧ (c.getTasksSortedBy value).1 = c) ∧
      (value = some "cost" →
        (∀ k : Int, l.filter (fun t => t.cost = k) = c.getTasks.filter (fun t => t.cost = k)) ∧
        ∀ a b, compareCost a b = 0 → [a, b].Sublist c.getTasks → [a, b].Sublist l) ∧
      (value = some "description" →
        (∀ d : String, l.filter (fun t => t.description = d) =
          c.getTasks.filter (fun t => t.description = d)) ∧
        ∀ a b, compareDescription a b = 0 → [a, b].Sublist c.getTasks →
          [a, b].Sublist l) := by
  have hperm := getTasksSortedBy_perm c value
  have hres : (c.getTasksSortedBy value).2 = Except.ok (c.getTasksSortedBy value).1.tasks := by
    unfold TaskController.getTasksSortedBy
    split
    · rfl
    · exact absurd rfl hv
    · rfl
    · rfl
  refine ⟨(c.getTasksSortedBy value).1.tasks, hres, rfl, hperm, hperm.length_eq,
    fun t => hperm.mem_iff, ?_, ?_, ?_⟩
  · intro h1 h2
    unfold TaskController.getTasksSortedBy
    split
    · exact absurd rfl h1
    · exact absurd rfl hv
    · exact absurd rfl h2
    · exact ⟨rfl, rfl⟩
  · intro h
    subst h
    refine ⟨fun k => ?_, fun a b hab hsub => ?_⟩
    · exact arraySort_stable compareCost (fun t => decide (t.cost = k))
        (fun a b ha hb => by
          rw [compareCost_le_iff]
          simp only [decide_eq_true_eq] at ha hb
          omega) c.tasks
    · exact List.pair_sublist_insertionSort (le_of_eq hab) hsub
  · intro h
    subst h
    refine ⟨fun d => ?_, fun a b hab hsub => ?_⟩
    · exact arraySort_stable compareDescription (fun t => decide (t.description = d))
        (fun a b ha hb => by
          rw [compareDescription_le_iff, jsStringLe_iff]
          simp only [decide_eq_true_eq] at ha hb
          rw [ha, hb]) c.tasks
    · exact List.pair_sublist_insertionSort (le_of_eq hab) hsub

theorem getTasksSortedBy_perm_stable_witness :
    some "cost" ≠ some "status" ∧
    sampleRegistry.getTasks.map Task.cost = [15, 40, 15] ∧
    ∃ l, (sampleRegistry.getTasksSortedBy (some "cost")).2 = Except.ok l ∧
      l.Perm sampleRegistry.getTasks ∧ l.map Task.cost = [40, 15, 15] ∧
      l.map Task.addr = [2, 1, 4] := by
  obtain ⟨l, h1, h2, h3, _⟩ :=
    getTasksSortedBy_perm_stable sampleRegistry (some "cost") (by decide)
  refine ⟨by decide, by decide, l, h1, h3, ?_, ?_⟩
  · rw [← h2]; decide
  · rw [← h2]; decide

/-! ## Filtered retrieval -/

/-- C14: `getFilteredTasks` with the single criterion `isIncome: true` returns exactly
the tasks of class `IncomeTask`, and with `isIncome: false` exactly the tasks of class
`ExpenseTask`, each in registry order; a filter without criteria (or with the empty
description) returns all tasks. The method only reads `#tasks`: it is a function of the
registry that returns a new sequence. -/
theorem getFilteredTasks_isIncome (c : TaskController) :
    c.getFilteredTasks ⟨none, some true, none⟩ =
      c.getTasks.filter (fun t => t.cls = TaskClass.IncomeTask) ∧
    c.getFilteredTasks ⟨none, some false, none⟩ =
      c.getTasks.filter (fun t => t.cls = TaskClass.ExpenseTask) ∧
    c.getFilteredTasks ⟨none, none, none⟩ = c.getTasks ∧
    c.getFilteredTasks ⟨some "", none, none⟩ = c.getTasks := by
  refine ⟨?_, ?_, ?_, ?_⟩
  · exact List.filter_congr (fun t _ => by rw [filterCallback_isIncome]; rfl)
  · exact List.filter_congr (fun t _ => by rw [filterCallback_isIncome]; rfl)
  · exact List.filter_eq_self.2 (fun t _ => rfl)
  · exact List.filter_eq_self.2 (fun t _ => rfl)

/-- C15: on a controller that holds an `IncomeTask` marked done through `doneTask` and an
`ExpenseTask` that is not done, the criterion `isCompleted` reads the property
`isCompleted`, which no task has, in place of `completed`: the filter with
`isIncome: true, isCompleted: true` returns no task (the claim says: the completed
`IncomeTask`), and the filter with `isCompleted: false` returns both tasks (the claim
says: only the one that is not completed). -/
theorem getFilteredTasks_isCompleted_scenario :
    sampleDoneWorld.ctl.getTasks = [sampleIncome, sampleExpense] ∧
    sampleDoneWorld.heap sampleIncome = ⟨true, some 1⟩ ∧
    sampleDoneWorld.heap sampleExpense = TaskFields.initial ∧
    sampleDoneWorld.ctl.taskController.getFilteredTasks ⟨none, some true, some true⟩ = [] ∧
    sampleDoneWorld.ctl.taskController.getFilteredTasks ⟨none, none, some true⟩ = [] ∧
    sampleDoneWorld.ctl.taskController.getFilteredTasks ⟨none, none, some false⟩ =
      [sampleIncome, sampleExpense] ∧
    sampleDoneWorld.ctl.taskController.getFilteredTasks ⟨none, some true, none⟩ =
      [sampleIncome] := by
  decide

/-! ## Budget record and construction -/

/-- C17, as the claim states it, fails: in double arithmetic `calculateBalance()`
computes `(b + 10) - 5`, which is not the double `b + 5` for `b = 9007199254740989`
(9007199254740996 against 9007199254740994) nor for `b = 0.3`; for `b = NaN` the
result is NaN, which is `==` to nothing. -/
theorem calculateBalance_rounds :
    (Float64.BudgetController.new (JSNumber.ofInt 9007199254740989)).calculateBalance =
      JSNumber.ofInt 9007199254740996 ∧
    JSNumber.add (JSNumber.ofInt 9007199254740989) (JSNumber.ofInt 5) =
      JSNumber.ofInt 9007199254740994 ∧
    JSNumber.eq
      (Float64.BudgetController.new (JSNumber.ofInt 9007199254740989)).calculateBalance
      (JSNumber.add (JSNumber.ofInt 9007199254740989) (JSNumber.ofInt 5)) = false ∧
    JSNumber.eq (Float64.BudgetController.new JSNumber.threeTenths).calculateBalance
      (JSNumber.add JSNumber.threeTenths (JSNumber.ofInt 5)) = false ∧
    JSNumber.eq (Float64.BudgetController.new JSNumber.nan).calculateBalance
      (JSNumber.add JSNumber.nan (JSNumber.ofInt 5)) = false := by
  decide!

/-- C17, amended: for every number `b`, a new `BudgetController(b)` has `income == 10`
and `expenses == 5`, its getter `balance` gives `income - expenses == 5` whatever `b`
is, and `calculateBalance()` gives `(b + income) - expenses` in double arithmetic; for
every integer `n` with `|n| + 10 < 2 ^ 53` this is exactly `n + 5`, the value of the
expression `n + 5`; for `b = 0` both `balance` and `calculateBalance()` are 5. -/
theorem new_budgetController (b : JSNumber) (n : Int) (hn : n.natAbs + 10 < 2 ^ 53) :
    (Float64.BudgetController.new b).income = JSNumber.ofInt 10 ∧
    (Float64.BudgetController.new b).expenses = JSNumber.ofInt 5 ∧
    (Float64.BudgetController.new b).balance =
      JSNumber.sub (Float64.BudgetController.new b).income
        (Float64.BudgetController.new b).expenses ∧
    (Float64.BudgetController.new b).balance = JSNumber.ofInt 5 ∧
    (Float64.BudgetController.new b).calculateBalance =
      JSNumber.sub (JSNumber.add b (Float64.BudgetController.new b).income)
        (Float64.BudgetController.new b).expenses ∧
    (Float64.BudgetController.new (JSNumber.ofInt n)).calculateBalance =
      JSNumber.ofInt (n + 5) ∧
    JSNumber.add (JSNumber.ofInt n) (JSNumber.ofInt 5) = JSNumber.ofInt (n + 5) ∧
    (Float64.BudgetController.new (JSNumber.ofInt 0)).balance = JSNumber.ofInt 5 ∧
    (Float64.BudgetController.new (JSNumber.ofInt 0)).calculateBalance =
      JSNumber.ofInt 5 := by
  have hbal : JSNumber.sub (JSNumber.ofInt 10) (JSNumber.ofInt 5) = JSNumber.ofInt 5 :=
    JSNumber.sub_ofInt 10 5 (by decide)
  have hcalc : ∀ m : Int, m.natAbs + 10 < 2 ^ 53 →
      JSNumber.sub (JSNumber.add (JSNumber.ofInt m) (JSNumber.ofInt 10)) (JSNumber.ofInt 5) =
        JSNumber.ofInt (m + 5) := by
    intro m hm
    rw [JSNumber.add_ofInt m 10 (by omega), JSNumber.sub_ofInt (m + 10) 5 (by omega)]
    congr 1
    omega
  exact ⟨rfl, rfl, rfl, hbal, rfl, hcalc n hn, JSNumber.add_ofInt n 5 (by omega), hbal,
    hcalc 0 (by decide)⟩

theorem new_budgetController_witness :
    (9007199254740981 : Int).natAbs + 10 < 2 ^ 53 ∧
    (Float64.BudgetController.new (JSNumber.ofInt 9007199254740981)).calculateBalance =
      JSNumber.ofInt 9007199254740986 ∧
    (Float64.BudgetController.new JSNumber.threeTenths).balance = JSNumber.ofInt 5 :=
  ⟨by decide,
    (new_budgetController JSNumber.threeTenths 9007199254740981 (by decide)).2.2.2.2.2.1,
    (new_budgetController JSNumber.threeTenths 9007199254740981 (by decide)).2.2.2.1⟩

/-- C18: on a budget record, `IncomeTask.makeDone` adds the cost to `income` and leaves
`expenses`, `ExpenseTask.makeDone` adds the cost to `expenses` and leaves `income`, and
for both classes `makeUnDone` after `makeDone` and `makeDone` after `makeUnDone` give
back the original record. -/
theorem makeDone_makeUnDone_inverse (t : Task) (budget : BudgetRecord) :
    (IncomeTask.makeDone t budget).income = budget.income + t.cost ∧
    (IncomeTask.makeDone t budget).expenses = budget.expenses ∧
    (ExpenseTask.makeDone t budget).expenses = budget.expenses + t.cost ∧
    (ExpenseTask.makeDone t budget).income = budget.income ∧
    IncomeTask.makeUnDone t (IncomeTask.makeDone t budget) = budget ∧
    IncomeTask.makeDone t (IncomeTask.makeUnDone t budget) = budget ∧
    ExpenseTask.makeUnDone t (ExpenseTask.makeDone t budget) = budget ∧
    ExpenseTask.makeDone t (ExpenseTask.makeUnDone t budget) = budget := by
  cases budget
  simp [IncomeTask.makeDone, IncomeTask.makeUnDone, ExpenseTask.makeDone,
    ExpenseTask.makeUnDone]

/-- C19, as the claim states it, fails: `new Task("rent", 15)` returns a task object of
the base class and raises no error. -/
theorem construct_base_task_succeeds :
    Task.construct TaskClass.Task 1 "3f9a" "rent" 15 =
      Except.ok { addr := 1, cls := TaskClass.Task, id := "id3f9a", description := "rent",
                  cost := 15 } ∧
    ¬ ∃ e, Task.construct TaskClass.Task 1 "3f9a" "rent" 15 = Except.error e :=
  ⟨rfl, fun ⟨_, h⟩ => nomatch h⟩

/-- C19, amended: for every class of the program (`Task` itself, `IncomeTask`,
`ExpenseTask`), every description and every cost, `new` of the class returns normally a
task object of that class with the given description and cost and the id made of "id"
and the random string; the guard of the constructor never fires for an object made by
`new`, since such an object is an instance of `Task`. -/
theorem construct_succeeds (cls : TaskClass) (addr : Nat) (random description : String)
    (cost : Int) :
    cls.instanceOf TaskClass.Task = true ∧
    Task.construct cls addr random description cost =
      Except.ok { addr := addr, cls := cls, id := "id" ++ random,
                  description := description, cost := cost } :=
  ⟨rfl, rfl⟩

end Budget
